import Mathlib

/-!
Verification development for the Kioti NS4710 ECU sniffer.

Shallow embedding of the three modules:
* `ECU Connection/ecu_connection.py` — connection lifecycle manager
  (`connect`, `disconnect`, `reconnect`, `query_pid`);
* `Data Capture/data_capture.py` — per-tick sampling (`_capture_sample`,
  `_check_and_maintain_connection`, the `capture_scenario` loop);
* `Protocol Discovery/protocol_discovery.py` — the standard-PID sweep and the
  custom-range sweep with their inter-probe delays.

The external transport (the `obd` library) is modelled by behaviour oracles:
each call the code makes into the transport is driven by an explicit input
describing what that call does (returns a handle, reports live or not,
raises, returns a null response, ...).  Times and delays are rationals.
-/

namespace Kioti

/-- A transport handle as returned by `obd.OBD(...)`: whether its
`is_connected()` liveness probe reports live, and whether `close()` raises. -/
structure Handle where
  live : Bool
  closeRaises : Bool
deriving DecidableEq

/-- Behaviour of one `obd.OBD(...)` constructor call inside
`ECUConnection.connect`: either the constructor raises, or it returns a
handle. -/
inductive OpenBehavior
  | raises
  | handle (h : Handle)
deriving DecidableEq

/-- Whether a `connect` call driven by this open behaviour succeeds:
only a constructor that returns a handle reporting itself live. -/
def obOk : OpenBehavior → Bool
  | .raises => false
  | .handle h => h.live

/-- The `ECUConnection` state the claims are about: `self.connection`
(the held transport handle, if any) and the `self.is_connected` flag. -/
structure ConnState where
  connection : Option Handle
  is_connected : Bool
deriving DecidableEq

/-- `ECUConnection.connect` (ecu_connection.py lines 61-93).
If the constructor raises, the exception is caught: `self.connection` keeps
its previous value (the assignment never happened), `is_connected` becomes
`False`, and the call returns `False`.  Otherwise the fresh handle is stored
and the call succeeds exactly when the handle reports itself live. -/
def connect (ob : OpenBehavior) (s : ConnState) : ConnState × Bool :=
  match ob with
  | .raises => ({ s with is_connected := false }, false)
  | .handle h =>
    if h.live then ({ connection := some h, is_connected := true }, true)
    else ({ connection := some h, is_connected := false }, false)

/-- `ECUConnection.disconnect` (ecu_connection.py lines 95-103).
Body: `if self.connection and self.is_connected: try: self.connection.close();
self.is_connected = False except: log`.  Note the flag reset sits inside the
`try` *after* `close()`: when `close()` raises, the flag is never reset. -/
def disconnect (s : ConnState) : ConnState :=
  match s.connection with
  | none => s
  | some h =>
    if s.is_connected then
      if h.closeRaises then s
      else { s with is_connected := false }
    else s

/-- Observable events of `ECUConnection.reconnect`: the initial
`self.disconnect()` call, each `self.connect()` attempt, and each
`time.sleep(self.reconnect_delay)`. -/
inductive Event
  | disconnectCall
  | connectAttempt
  | sleep (d : ℚ)
deriving DecidableEq

/-- The `for attempt in range(1, n+1)` loop of `ECUConnection.reconnect`
(ecu_connection.py lines 115-126).  The list holds one `OpenBehavior` per
remaining attempt; a sleep happens only when the attempt failed and was not
the last one (`attempt < n`). -/
def reconnectLoop (delay : ℚ) : List OpenBehavior → ConnState → ConnState × Bool × List Event
  | [], s => (s, false, [])
  | ob :: rest, s =>
    let c := connect ob s
    if c.2 then (c.1, true, [.connectAttempt])
    else if rest.isEmpty then (c.1, false, [.connectAttempt])
    else
      let t := reconnectLoop delay rest c.1
      (t.1, t.2.1, .connectAttempt :: .sleep delay :: t.2.2)

/-- `ECUConnection.reconnect` (ecu_connection.py lines 105-126): first
`self.disconnect()`, then the attempt loop.  `behs.length` plays the role of
`self.reconnect_attempts`, `delay` of `self.reconnect_delay`. -/
def reconnect (behs : List OpenBehavior) (delay : ℚ) (s : ConnState) :
    ConnState × Bool × List Event :=
  let t := reconnectLoop delay behs (disconnect s)
  (t.1, t.2.1, .disconnectCall :: t.2.2)

/-- A transport response object, as far as the claims need it: its
`is_null()` answer and its `value` payload. -/
structure Response where
  isNull : Bool
deriving DecidableEq

/-- Behaviour of one `self.connection.query(command)` call:
either it raises or it returns a response object. -/
inductive QueryBehavior
  | raises
  | answers (r : Response)
deriving DecidableEq

/-- Discriminator for the raising behaviour. -/
def QueryBehavior.isRaises : QueryBehavior → Bool
  | .raises => true
  | .answers _ => false

/-- `ECUConnection.query_pid` (ecu_connection.py lines 180-199).
First component: what the caller receives (`None` or the response object).
Second component: whether a transport query was actually issued. -/
def query_pid (s : ConnState) (qb : QueryBehavior) : Option Response × Bool :=
  if s.connection.isSome && s.is_connected then
    match qb with
    | .raises => (none, true)
    | .answers r => (some r, true)
  else (none, false)

/-- Modelled from the spec (section 3 and 4.1), for comparison with the code:
spec state `Fatal` "is terminal until a fresh manager instance is created",
and `Disconnected → Connected` happens only via `connect`; so a manager state
is `Fatal` only if no `connect` call on that same state can ever succeed. -/
def fatalPerSpec (s : ConnState) : Prop :=
  ∀ ob : OpenBehavior, (connect ob s).2 = false

/- Basic helper lemmas about `connect` and `disconnect`, shared by the
claim theorems below. -/

theorem connect_snd_eq (ob : OpenBehavior) (s : ConnState) :
    (connect ob s).2 = obOk ob := by
  cases ob with
  | raises => rfl
  | handle h => cases hl : h.live <;> simp [connect, obOk, hl]

theorem connect_isConn (ob : OpenBehavior) (s : ConnState) :
    (connect ob s).1.is_connected = obOk ob := by
  cases ob with
  | raises => rfl
  | handle h => cases hl : h.live <;> simp [connect, obOk, hl]

/-- The attempt/sleep trace a failing run of the reconnect loop produces:
`n` attempts with `n - 1` sleeps interleaved, never a sleep after the
final attempt. -/
def attemptTrace (delay : ℚ) : ℕ → List Event
  | 0 => []
  | 1 => [.connectAttempt]
  | n + 2 => .connectAttempt :: .sleep delay :: attemptTrace delay (n + 1)

theorem attemptTrace_count_attempt (delay : ℚ) :
    ∀ n, (attemptTrace delay n).count Event.connectAttempt = n := by
  intro n
  induction n with
  | zero => rfl
  | succ m ih =>
    cases m with
    | zero => rfl
    | succ k =>
      have hk : (attemptTrace delay (k + 1)).count Event.connectAttempt = k + 1 := ih
      simp only [attemptTrace, List.count_cons]
      rw [hk]
      simp

theorem attemptTrace_count_sleep (delay : ℚ) :
    ∀ n, (attemptTrace delay n).count (Event.sleep delay) = n - 1 := by
  intro n
  induction n with
  | zero => rfl
  | succ m ih =>
    cases m with
    | zero => rfl
    | succ k =>
      have hk : (attemptTrace delay (k + 1)).count (Event.sleep delay) = k := ih
      simp only [attemptTrace, List.count_cons]
      rw [hk]
      simp

theorem reconnectLoop_single (delay : ℚ) (ob : OpenBehavior) (s : ConnState) :
    reconnectLoop delay [ob] s =
      (if (connect ob s).2 then ((connect ob s).1, true, [Event.connectAttempt])
       else ((connect ob s).1, false, [Event.connectAttempt])) := rfl

theorem reconnectLoop_cons_cons (delay : ℚ) (ob r : OpenBehavior) (rs : List OpenBehavior)
    (s : ConnState) :
    reconnectLoop delay (ob :: r :: rs) s =
      (if (connect ob s).2 then ((connect ob s).1, true, [Event.connectAttempt])
       else
         ((reconnectLoop delay (r :: rs) (connect ob s).1).1,
          (reconnectLoop delay (r :: rs) (connect ob s).1).2.1,
          Event.connectAttempt :: Event.sleep delay ::
            (reconnectLoop delay (r :: rs) (connect ob s).1).2.2)) := rfl

theorem reconnectLoop_all_fail (delay : ℚ) :
    ∀ (behs : List OpenBehavior) (s : ConnState), behs ≠ [] →
      (∀ ob ∈ behs, obOk ob = false) →
      reconnectLoop delay behs s =
        ((reconnectLoop delay behs s).1, false, attemptTrace delay behs.length) ∧
      (reconnectLoop delay behs s).1.is_connected = false := by
  intro behs
  induction behs with
  | nil => intro s h; exact absurd rfl h
  | cons ob rest ih =>
    intro s _ hfail
    have hob : obOk ob = false := hfail ob (by simp)
    have hc2 : (connect ob s).2 = false := by rw [connect_snd_eq, hob]
    have hc1 : (connect ob s).1.is_connected = false := by rw [connect_isConn, hob]
    have hcond : ¬ ((connect ob s).2 = true) := by simp [hc2]
    cases rest with
    | nil =>
      rw [reconnectLoop_single delay ob s, if_neg hcond]
      exact ⟨rfl, hc1⟩
    | cons r rs =>
      have hrest : ∀ o ∈ r :: rs, obOk o = false := by
        intro o ho; exact hfail o (by simp [ho])
      have hne : (r :: rs) ≠ ([] : List OpenBehavior) := by simp
      obtain ⟨ht, hconn⟩ := ih (connect ob s).1 hne hrest
      have htr : (reconnectLoop delay (r :: rs) (connect ob s).1).2.1 = false := by
        conv_lhs => rw [ht]
      have htrace : (reconnectLoop delay (r :: rs) (connect ob s).1).2.2 =
          attemptTrace delay (r :: rs).length := by
        conv_lhs => rw [ht]
      rw [reconnectLoop_cons_cons delay ob r rs s, if_neg hcond]
      refine ⟨?_, hconn⟩
      rw [htr, htrace]
      rw [show (ob :: r :: rs).length = rs.length + 2 from rfl,
          show (r :: rs).length = rs.length + 1 from rfl,
          show attemptTrace delay (rs.length + 2) =
            Event.connectAttempt :: Event.sleep delay :: attemptTrace delay (rs.length + 1)
            from rfl]

theorem reconnectLoop_cons_ne (delay : ℚ) (ob : OpenBehavior) (l : List OpenBehavior)
    (s : ConnState) (hl : l ≠ []) :
    reconnectLoop delay (ob :: l) s =
      (if (connect ob s).2 then ((connect ob s).1, true, [Event.connectAttempt])
       else
         ((reconnectLoop delay l (connect ob s).1).1,
          (reconnectLoop delay l (connect ob s).1).2.1,
          Event.connectAttempt :: Event.sleep delay ::
            (reconnectLoop delay l (connect ob s).1).2.2)) := by
  cases l with
  | nil => exact absurd rfl hl
  | cons r rs => exact reconnectLoop_cons_cons delay ob r rs s

theorem reconnectLoop_first_success (delay : ℚ) :
    ∀ (fs : List OpenBehavior) (okb : OpenBehavior) (rest : List OpenBehavior) (s : ConnState),
      (∀ ob ∈ fs, obOk ob = false) → obOk okb = true →
      (reconnectLoop delay (fs ++ okb :: rest) s).2.1 = true ∧
      (reconnectLoop delay (fs ++ okb :: rest) s).1.is_connected = true ∧
      (reconnectLoop delay (fs ++ okb :: rest) s).2.2 = attemptTrace delay (fs.length + 1) := by
  intro fs
  induction fs with
  | nil =>
    intro okb rest s _ hok
    have hc2 : (connect okb s).2 = true := by rw [connect_snd_eq, hok]
    have hc1 : (connect okb s).1.is_connected = true := by rw [connect_isConn, hok]
    simp only [List.nil_append, List.length_nil]
    cases rest with
    | nil =>
      rw [reconnectLoop_single delay okb s, if_pos hc2]
      exact ⟨rfl, hc1, rfl⟩
    | cons r rs =>
      rw [reconnectLoop_cons_cons delay okb r rs s, if_pos hc2]
      exact ⟨rfl, hc1, rfl⟩
  | cons f fs' ih =>
    intro okb rest s hfail hok
    have hf : obOk f = false := hfail f (by simp)
    have hc2 : (connect f s).2 = false := by rw [connect_snd_eq, hf]
    have hcond : ¬ ((connect f s).2 = true) := by simp [hc2]
    have hne : fs' ++ okb :: rest ≠ [] := by simp
    obtain ⟨h1, h2, h3⟩ :=
      ih okb rest (connect f s).1 (fun o ho => hfail o (by simp [ho])) hok
    rw [List.cons_append, reconnectLoop_cons_ne delay f (fs' ++ okb :: rest) s hne,
        if_neg hcond]
    refine ⟨h1, h2, ?_⟩
    show Event.connectAttempt :: Event.sleep delay ::
        (reconnectLoop delay (fs' ++ okb :: rest) (connect f s).1).2.2 = _
    rw [h3,
        show (f :: fs').length + 1 = fs'.length + 2 from rfl,
        show attemptTrace delay (fs'.length + 2) =
          Event.connectAttempt :: Event.sleep delay :: attemptTrace delay (fs'.length + 1)
          from rfl]

/-- Claim C6 (confirmed): for every behaviour of the transport open operation
— the constructor raises, or it returns a handle reporting not-live or live —
`connect` is total (the Lean function models the `try/except`: no exception
escapes), it returns success exactly when the freshly opened transport reports
itself live (`obOk`), and `is_connected` afterwards equals that same success
bit, so on failure the state is left `Disconnected`. -/
theorem connect_failure_modes (ob : OpenBehavior) (s : ConnState) :
    (connect ob s).2 = obOk ob ∧ (connect ob s).1.is_connected = obOk ob :=
  ⟨connect_snd_eq ob s, connect_isConn ob s⟩

/-- Claim C3 (code_bug): `disconnect` on a connected manager whose transport
`close()` raises swallows the error but returns with `is_connected` still
`True` — the flag reset sits inside the `try` after `close()`, so the state
is *not* always `Disconnected` afterwards, contradicting the claim and the
spec sentence "always leaves state `Disconnected`". -/
theorem disconnect_close_raises_stays_connected :
    (disconnect { connection := some { live := true, closeRaises := true },
                  is_connected := true }).is_connected = true := rfl

/-- Claim C10 (confirmed): `query_pid` is total and Option-valued: a transport
query is issued exactly when a transport handle is held and the manager is in
the connected state; the result is non-`None` exactly when additionally the
underlying query does not raise.  In particular, with no handle or while
disconnected it returns `None` without issuing any query, and a raising query
yields `None`; the embedding is a total function, so no exception propagates. -/
theorem query_pid_never_raises (s : ConnState) (qb : QueryBehavior) :
    (query_pid s qb).2 = (s.connection.isSome && s.is_connected) ∧
    (query_pid s qb).1.isSome = ((s.connection.isSome && s.is_connected) && !qb.isRaises) := by
  by_cases h : (s.connection.isSome && s.is_connected) = true
  · cases qb <;> simp [query_pid, h, QueryBehavior.isRaises]
  · have h2 : (s.connection.isSome && s.is_connected) = false := by
      cases hx : (s.connection.isSome && s.is_connected) <;> simp_all
    cases qb <;> simp [query_pid, h2, QueryBehavior.isRaises]

/-- Claim C1 (corrected): `reconnect` against a transport whose `connect`
always fails performs exactly `n` connect attempts with exactly `n - 1` sleeps
of `delay` seconds interleaved between them (never after the final attempt),
returns failure, and leaves the connection *disconnected*
(`is_connected = false`).  The code has no distinct terminal `Fatal` state
(see the counterexample theorem). -/
theorem reconnect_all_attempts_fail (behs : List OpenBehavior) (delay : ℚ) (s : ConnState)
    (n : ℕ) (hlen : behs.length = n) (hn : 1 ≤ n)
    (hfail : ∀ ob ∈ behs, obOk ob = false) :
    (reconnect behs delay s).2.1 = false ∧
    (reconnect behs delay s).1.is_connected = false ∧
    (reconnect behs delay s).2.2 = Event.disconnectCall :: attemptTrace delay n ∧
    (reconnect behs delay s).2.2.count Event.connectAttempt = n ∧
    (reconnect behs delay s).2.2.count (Event.sleep delay) = n - 1 := by
  have hne : behs ≠ [] := by
    intro h; rw [h] at hlen; simp at hlen; omega
  obtain ⟨ht, hconn⟩ := reconnectLoop_all_fail delay behs (disconnect s) hne hfail
  have ht21 : (reconnectLoop delay behs (disconnect s)).2.1 = false := by
    conv_lhs => rw [ht]
  have ht22 : (reconnectLoop delay behs (disconnect s)).2.2 =
      attemptTrace delay behs.length := by
    conv_lhs => rw [ht]
  refine ⟨ht21, hconn, ?_, ?_, ?_⟩
  · show Event.disconnectCall :: (reconnectLoop delay behs (disconnect s)).2.2 = _
    rw [ht22, hlen]
  · show (Event.disconnectCall ::
        (reconnectLoop delay behs (disconnect s)).2.2).count Event.connectAttempt = n
    rw [ht22, hlen, List.count_cons]
    simp [attemptTrace_count_attempt]
  · show (Event.disconnectCall ::
        (reconnectLoop delay behs (disconnect s)).2.2).count (Event.sleep delay) = n - 1
    rw [ht22, hlen, List.count_cons]
    simp [attemptTrace_count_sleep]

/-- Witness for `reconnect_all_attempts_fail` at a concrete input:
two attempts, both failing (one raising constructor, one dead handle). -/
theorem reconnect_all_attempts_fail_witness :
    (reconnect [OpenBehavior.raises, OpenBehavior.handle { live := false, closeRaises := false }]
        3 { connection := none, is_connected := false }).2.1 = false ∧
    (reconnect [OpenBehavior.raises, OpenBehavior.handle { live := false, closeRaises := false }]
        3 { connection := none, is_connected := false }).1.is_connected = false ∧
    (reconnect [OpenBehavior.raises, OpenBehavior.handle { live := false, closeRaises := false }]
        3 { connection := none, is_connected := false }).2.2 =
      Event.disconnectCall :: attemptTrace 3 2 ∧
    (reconnect [OpenBehavior.raises, OpenBehavior.handle { live := false, closeRaises := false }]
        3 { connection := none, is_connected := false }).2.2.count Event.connectAttempt = 2 ∧
    (reconnect [OpenBehavior.raises, OpenBehavior.handle { live := false, closeRaises := false }]
        3 { connection := none, is_connected := false }).2.2.count (Event.sleep 3) = 2 - 1 :=
  reconnect_all_attempts_fail _ 3 _ 2 rfl (by omega) (by decide)

/-- Claim C1 counterexample: the state left by an exhausted `reconnect` is not
`Fatal` in the spec's sense (terminal until a fresh manager instance is
created): a later `connect` on the very same state, against a transport that
now returns a live handle, succeeds. -/
theorem reconnect_exhausted_not_fatal :
    ¬ fatalPerSpec ((reconnect [OpenBehavior.raises, OpenBehavior.raises] 3
        { connection := none, is_connected := false }).1) := by
  intro h
  have h2 := h (OpenBehavior.handle { live := true, closeRaises := false })
  exact absurd h2 (by decide)

/-- Claim C5 (confirmed): `reconnect` against a transport that first succeeds
on attempt `k ≤ n` first issues `disconnect`, then performs exactly `k`
connect attempts (with `k - 1` sleeps between them), short-circuits the
remaining `n - k` attempts, returns success, and leaves the state `Connected`
(`is_connected = true`). -/
theorem reconnect_success_short_circuits (behs fs rest : List OpenBehavior)
    (okb : OpenBehavior) (delay : ℚ) (s : ConnState) (n k : ℕ)
    (hsplit : behs = fs ++ okb :: rest)
    (hlen : behs.length = n) (hk : k = fs.length + 1) (hkn : k ≤ n)
    (hfail : ∀ ob ∈ fs, obOk ob = false) (hok : obOk okb = true) :
    (reconnect behs delay s).2.1 = true ∧
    (reconnect behs delay s).1.is_connected = true ∧
    (reconnect behs delay s).2.2 = Event.disconnectCall :: attemptTrace delay k ∧
    (reconnect behs delay s).2.2.count Event.connectAttempt = k ∧
    (reconnect behs delay s).2.2.count (Event.sleep delay) = k - 1 := by
  subst hsplit hk
  obtain ⟨h1, h2, h3⟩ :=
    reconnectLoop_first_success delay fs okb rest (disconnect s) hfail hok
  refine ⟨h1, h2, ?_, ?_, ?_⟩
  · show Event.disconnectCall ::
        (reconnectLoop delay (fs ++ okb :: rest) (disconnect s)).2.2 = _
    rw [h3]
  · show (Event.disconnectCall ::
        (reconnectLoop delay (fs ++ okb :: rest) (disconnect s)).2.2).count
          Event.connectAttempt = fs.length + 1
    rw [h3, List.count_cons]
    simp [attemptTrace_count_attempt]
  · show (Event.disconnectCall ::
        (reconnectLoop delay (fs ++ okb :: rest) (disconnect s)).2.2).count
          (Event.sleep delay) = fs.length + 1 - 1
    rw [h3, List.count_cons]
    simp [attemptTrace_count_sleep]

/-- Witness for `reconnect_success_short_circuits` at a concrete input:
three configured attempts, failure then success on attempt 2. -/
theorem reconnect_success_short_circuits_witness :
    (reconnect [OpenBehavior.raises, OpenBehavior.handle { live := true, closeRaises := false },
        OpenBehavior.raises] 3 { connection := none, is_connected := false }).2.1 = true ∧
    (reconnect [OpenBehavior.raises, OpenBehavior.handle { live := true, closeRaises := false },
        OpenBehavior.raises] 3 { connection := none, is_connected := false }).1.is_connected
      = true ∧
    (reconnect [OpenBehavior.raises, OpenBehavior.handle { live := true, closeRaises := false },
        OpenBehavior.raises] 3 { connection := none, is_connected := false }).2.2 =
      Event.disconnectCall :: attemptTrace 3 2 ∧
    (reconnect [OpenBehavior.raises, OpenBehavior.handle { live := true, closeRaises := false },
        OpenBehavior.raises] 3 { connection := none, is_connected := false }).2.2.count
        Event.connectAttempt = 2 ∧
    (reconnect [OpenBehavior.raises, OpenBehavior.handle { live := true, closeRaises := false },
        OpenBehavior.raises] 3 { connection := none, is_connected := false }).2.2.count
        (Event.sleep 3) = 2 - 1 :=
  reconnect_success_short_circuits _ [OpenBehavior.raises] [OpenBehavior.raises]
    (OpenBehavior.handle { live := true, closeRaises := false }) 3
    { connection := none, is_connected := false } 3 2 rfl rfl rfl (by omega)
    (by decide) (by decide)

/-! Data capture (`Data Capture/data_capture.py`). -/

/-- A channel value as extracted by `_capture_sample`: a Pint quantity turned
into a float, or anything else turned into a string. -/
inductive Value
  | num (q : ℚ)
  | txt (s : String)
deriving DecidableEq

/-- A monitored channel name (an entry of `self.monitored_pids`). -/
abbrev PidName := String

/-- Outcome of handling one monitored channel inside `_capture_sample`
(data_capture.py lines 193-213).  `nullResp` covers `query_pid` returning
`None` (which is what a transport timeout or exception surfaces as, since
`query_pid` swallows them) as well as a response whose `is_null()` is true;
`val v` is a valid reading; `raisesDuring` is an exception raised while
processing the channel (e.g. during value extraction), caught by the
per-channel `except`. -/
inductive ChanOutcome
  | nullResp
  | val (v : Value)
  | raisesDuring
deriving DecidableEq

/-- The reading recorded for a channel with the given outcome. -/
def chanValue : ChanOutcome → Option Value
  | .val v => some v
  | _ => none

/-- The `self.stats` counters of `DataCapture`. -/
structure Stats where
  total_samples : ℕ
  failed_samples : ℕ
  reconnections : ℕ
deriving DecidableEq

/-- The `sample` dict built by `_capture_sample`: `sample['data']` as an
association list in insertion order (the timestamp is not modelled). -/
structure Sample where
  data : List (PidName × Option Value)
deriving DecidableEq

/-- One iteration of the per-channel loop of `_capture_sample`
(data_capture.py lines 193-213): record the reading, and on an exception
raised while processing the channel also increment `failed_samples`. -/
def captureChannel (outcomes : PidName → ChanOutcome) (acc : Sample × Stats)
    (p : PidName) : Sample × Stats :=
  match outcomes p with
  | .nullResp => ({ data := acc.1.data ++ [(p, none)] }, acc.2)
  | .val v => ({ data := acc.1.data ++ [(p, some v)] }, acc.2)
  | .raisesDuring =>
    ({ data := acc.1.data ++ [(p, none)] },
     { acc.2 with failed_samples := acc.2.failed_samples + 1 })

/-- `DataCapture._capture_sample` (data_capture.py lines 181-216): loop over
all monitored channels, then increment `total_samples` once. -/
def capture_sample (pids : List PidName) (outcomes : PidName → ChanOutcome)
    (st : Stats) : Sample × Stats :=
  let r := pids.foldl (captureChannel outcomes) (⟨[]⟩, st)
  (r.1, { r.2 with total_samples := r.2.total_samples + 1 })

/-- `sample['data'].get(pid, '')` as used when building the CSV row
(data_capture.py line 295): the stored reading if the key is present,
otherwise the default; a stored `None` and the default both come out as an
empty CSV cell, so both are `none` here. -/
def lookupData : List (PidName × Option Value) → PidName → Option Value
  | [], _ => none
  | (q, v) :: rest, p => if q = p then v else lookupData rest p

/-- The per-PID cells of one CSV row (data_capture.py line 295):
one cell per configured channel, in configuration order. -/
def rowCells (pids : List PidName) (data : List (PidName × Option Value)) :
    List (Option Value) :=
  pids.map (fun p => lookupData data p)

/-- Joint outcome of `check_connection` and (if needed) `reconnect` inside
`_check_and_maintain_connection` (data_capture.py lines 218-236). -/
inductive HealthEnv
  | healthy
  | unhealthyReconnected
  | unhealthyExhausted
deriving DecidableEq

/-- `DataCapture._check_and_maintain_connection`: first component is whether
capture may continue, second the increment of `stats['reconnections']`. -/
def checkAndMaintain : HealthEnv → Bool × ℕ
  | .healthy => (true, 0)
  | .unhealthyReconnected => (true, 1)
  | .unhealthyExhausted => (false, 1)

/-- External inputs consumed by iteration `i` of the `capture_scenario` loop:
the cancellation flag observed in the `while` condition, `time.time()` at the
top (for `elapsed`), the health/reconnect outcome, the per-channel outcomes of
this tick, and `time.time()` inside the end-of-iteration sleep computation. -/
structure TickEnv where
  cancel : Bool
  nowTop : ℚ
  health : HealthEnv
  outcomes : PidName → ChanOutcome
  nowSleep : ℚ

/-- One CSV row: `elapsed` plus the per-channel cells (the timestamp string
is not modelled). -/
structure Row where
  elapsed : ℚ
  cells : List (Option Value)
deriving DecidableEq

/-- Observable events of `capture_scenario`: a row written to the sink, a
drift-corrected sleep at the end of iteration `i`, and the sink close
performed by the `finally` block. -/
inductive CapEvent
  | row (r : Row)
  | sleep (i : ℕ) (d : ℚ)
  | closeSink
deriving DecidableEq

/-- Whether an event is a written row. -/
def CapEvent.isRow : CapEvent → Bool
  | .row _ => true
  | _ => false

/-- The `while` loop of `DataCapture.capture_scenario`
(data_capture.py lines 274-311), driven by the per-iteration inputs `env`.
`i` is the iteration index (instrumentation for event tags), `sc` the code's
`sample_count` variable, `st` the running stats.  Returns the events of the
loop, the function's boolean result and the final stats; `none` only when the
modelling fuel runs out (the code itself terminates through the duration
check, the health check or cancellation). -/
def captureLoop (pids : List PidName) (duration start interval : ℚ)
    (env : ℕ → TickEnv) :
    ℕ → ℕ → ℕ → Stats → Option (List CapEvent × Bool × Stats)
  | 0, _, _, _ => none
  | fuel + 1, i, sc, st =>
    let e := env i
    if e.cancel then some ([], true, st)
    else if duration ≤ e.nowTop - start then some ([], true, st)
    else
      let cm := checkAndMaintain e.health
      let st1 : Stats := { st with reconnections := st.reconnections + cm.2 }
      if cm.1 then
        let cs := capture_sample pids e.outcomes st1
        let r : Row := ⟨e.nowTop - start, rowCells pids cs.1.data⟩
        let sc1 := sc + 1
        let d := start + (sc1 : ℚ) * interval - e.nowSleep
        let sleeps : List CapEvent := if 0 < d then [.sleep i d] else []
        match captureLoop pids duration start interval env fuel (i + 1) sc1 cs.2 with
        | none => none
        | some t => some (.row r :: sleeps ++ t.1, t.2.1, t.2.2)
      else some ([], false, st1)

/-- `DataCapture.capture_scenario` (data_capture.py lines 238-325), from the
start of the capture loop: run the loop, then close the sink exactly once in
the `finally` block. -/
def captureScenario (pids : List PidName) (duration start interval : ℚ)
    (env : ℕ → TickEnv) (fuel : ℕ) (st : Stats) :
    Option (List CapEvent × Bool × Stats) :=
  match captureLoop pids duration start interval env fuel 0 0 st with
  | none => none
  | some t => some (t.1 ++ [.closeSink], t.2.1, t.2.2)

/- Helper lemmas on `_capture_sample` and the row construction. -/

theorem captureFold_spec (outcomes : PidName → ChanOutcome) :
    ∀ (pids : List PidName) (acc : Sample × Stats),
      (pids.foldl (captureChannel outcomes) acc).1.data
        = acc.1.data ++ pids.map (fun p => (p, chanValue (outcomes p))) ∧
      (pids.foldl (captureChannel outcomes) acc).2.failed_samples
        = acc.2.failed_samples
          + pids.countP (fun p => outcomes p == ChanOutcome.raisesDuring) ∧
      (pids.foldl (captureChannel outcomes) acc).2.total_samples
        = acc.2.total_samples ∧
      (pids.foldl (captureChannel outcomes) acc).2.reconnections
        = acc.2.reconnections := by
  intro pids
  induction pids with
  | nil => intro acc; simp
  | cons p ps ih =>
    intro acc
    obtain ⟨h1, h2, h3, h4⟩ := ih (captureChannel outcomes acc p)
    rw [List.foldl_cons]
    refine ⟨?_, ?_, ?_, ?_⟩
    · rw [h1]; cases ho : outcomes p <;> simp [captureChannel, ho, chanValue]
    · rw [h2]
      cases ho : outcomes p <;> simp [captureChannel, ho, List.countP_cons] <;> try omega
    · rw [h3]; cases ho : outcomes p <;> simp [captureChannel, ho]
    · rw [h4]; cases ho : outcomes p <;> simp [captureChannel, ho]

theorem capture_sample_data (pids : List PidName) (outcomes : PidName → ChanOutcome)
    (st : Stats) :
    (capture_sample pids outcomes st).1.data
      = pids.map (fun p => (p, chanValue (outcomes p))) := by
  have h := (captureFold_spec outcomes pids (⟨[]⟩, st)).1
  simpa [capture_sample] using h

theorem capture_sample_failed (pids : List PidName) (outcomes : PidName → ChanOutcome)
    (st : Stats) :
    (capture_sample pids outcomes st).2.failed_samples
      = st.failed_samples + pids.countP (fun p => outcomes p == ChanOutcome.raisesDuring) := by
  have h := (captureFold_spec outcomes pids (⟨[]⟩, st)).2.1
  simpa [capture_sample] using h

theorem capture_sample_total (pids : List PidName) (outcomes : PidName → ChanOutcome)
    (st : Stats) :
    (capture_sample pids outcomes st).2.total_samples = st.total_samples + 1 := by
  have h := (captureFold_spec outcomes pids (⟨[]⟩, st)).2.2.1
  simp only [capture_sample]
  rw [h]

theorem capture_sample_reconn (pids : List PidName) (outcomes : PidName → ChanOutcome)
    (st : Stats) :
    (capture_sample pids outcomes st).2.reconnections = st.reconnections := by
  have h := (captureFold_spec outcomes pids (⟨[]⟩, st)).2.2.2
  simpa [capture_sample] using h

theorem map_congr_mem {α β : Type} (f g : α → β) :
    ∀ l : List α, (∀ a ∈ l, f a = g a) → l.map f = l.map g := by
  intro l
  induction l with
  | nil => intro _; rfl
  | cons a as ih =>
    intro h
    simp only [List.map_cons]
    rw [h a (by simp), ih (fun x hx => h x (by simp [hx]))]

theorem lookupData_map (f : PidName → Option Value) :
    ∀ (l : List PidName) (q : PidName), q ∈ l →
      lookupData (l.map fun p => (p, f p)) q = f q := by
  intro l
  induction l with
  | nil => intro q hq; simp at hq
  | cons a as ih =>
    intro q hq
    by_cases h : a = q
    · subst h; simp [lookupData]
    · have hq' : q ∈ as := by
        rcases List.mem_cons.mp hq with h1 | h1
        · exact absurd h1.symm h
        · exact h1
      simp only [List.map_cons, lookupData, if_neg h]
      exact ih q hq'

theorem rowCells_capture (pids : List PidName) (outcomes : PidName → ChanOutcome)
    (st : Stats) :
    rowCells pids (capture_sample pids outcomes st).1.data
      = pids.map (fun p => chanValue (outcomes p)) := by
  rw [rowCells, capture_sample_data]
  exact map_congr_mem _ _ pids
    (fun p hp => lookupData_map (fun q => chanValue (outcomes q)) pids p hp)

/-- Claim C2 (corrected): in every tick each configured channel is handled in
isolation — a null response (which is also how transport timeouts and
exceptions surface, since `query_pid` swallows them) or an exception raised
while processing the channel records an absent reading for that channel and
the tick continues with the remaining channels; but the `failed_samples`
counter is incremented only for channels whose processing raises, one per
such channel — a null response does *not* increment it. -/
theorem tick_failures_isolated (pids : List PidName) (outcomes : PidName → ChanOutcome)
    (st : Stats) :
    (capture_sample pids outcomes st).1.data
      = pids.map (fun p => (p, chanValue (outcomes p))) ∧
    (capture_sample pids outcomes st).2.failed_samples
      = st.failed_samples + pids.countP (fun p => outcomes p == ChanOutcome.raisesDuring) ∧
    (capture_sample pids outcomes st).2.total_samples = st.total_samples + 1 :=
  ⟨capture_sample_data pids outcomes st, capture_sample_failed pids outcomes st,
   capture_sample_total pids outcomes st⟩

/-- Claim C2 counterexample: one configured channel whose query yields a null
response.  The reading is recorded absent, but `failed_samples` stays 0 —
the claim demanded it be incremented to 1. -/
theorem null_read_not_counted :
    (capture_sample ["RPM"] (fun _ => ChanOutcome.nullResp) ⟨0, 0, 0⟩).1.data
      = [("RPM", none)] ∧
    ¬ ((capture_sample ["RPM"] (fun _ => ChanOutcome.nullResp) ⟨0, 0, 0⟩).2.failed_samples
      = 1) := by
  refine ⟨rfl, ?_⟩
  decide

/-- Claim C8 (confirmed): for every tick and every assignment of per-channel
outcomes, the row cells written for the tick are exactly one per configured
channel in order, each determined solely by its own channel's outcome
(`chanValue`) — failing channels are recorded absent without affecting the
values recorded for the other channels — and the row length equals the number
of configured channels. -/
theorem tick_rows_complete (pids : List PidName) (outcomes : PidName → ChanOutcome)
    (st : Stats) :
    rowCells pids (capture_sample pids outcomes st).1.data
      = pids.map (fun p => chanValue (outcomes p)) ∧
    (rowCells pids (capture_sample pids outcomes st).1.data).length = pids.length := by
  refine ⟨rowCells_capture pids outcomes st, ?_⟩
  rw [rowCells_capture pids outcomes st, List.length_map]

/- Step lemmas exposing one iteration of the capture loop. -/

theorem captureLoop_step_cancel (pids : List PidName) (duration start interval : ℚ)
    (env : ℕ → TickEnv) (f i sc : ℕ) (st : Stats) (hc : (env i).cancel = true) :
    captureLoop pids duration start interval env (f + 1) i sc st = some ([], true, st) := by
  simp only [captureLoop]
  rw [hc]
  simp

theorem captureLoop_step_done (pids : List PidName) (duration start interval : ℚ)
    (env : ℕ → TickEnv) (f i sc : ℕ) (st : Stats) (hc : (env i).cancel = false)
    (hd : duration ≤ (env i).nowTop - start) :
    captureLoop pids duration start interval env (f + 1) i sc st = some ([], true, st) := by
  simp only [captureLoop]
  rw [hc]
  simp only [Bool.false_eq_true, if_false]
  rw [if_pos hd]

theorem captureLoop_step_dead (pids : List PidName) (duration start interval : ℚ)
    (env : ℕ → TickEnv) (f i sc : ℕ) (st : Stats) (hc : (env i).cancel = false)
    (hd : (env i).nowTop - start < duration)
    (hh : (checkAndMaintain (env i).health).1 = false) :
    captureLoop pids duration start interval env (f + 1) i sc st =
      some ([], false,
        { st with reconnections := st.reconnections + (checkAndMaintain (env i).health).2 }) := by
  simp only [captureLoop]
  rw [hc]
  simp only [Bool.false_eq_true, if_false]
  rw [if_neg (not_le.mpr hd), hh]
  simp

theorem captureLoop_step_normal (pids : List PidName) (duration start interval : ℚ)
    (env : ℕ → TickEnv) (f i sc : ℕ) (st : Stats) (hc : (env i).cancel = false)
    (hd : (env i).nowTop - start < duration)
    (hh : (checkAndMaintain (env i).health).1 = true) :
    captureLoop pids duration start interval env (f + 1) i sc st =
      (match captureLoop pids duration start interval env f (i + 1) (sc + 1)
          (capture_sample pids (env i).outcomes
            { st with reconnections :=
                st.reconnections + (checkAndMaintain (env i).health).2 }).2 with
       | none => none
       | some t =>
         some (CapEvent.row ⟨(env i).nowTop - start,
                 rowCells pids (capture_sample pids (env i).outcomes
                   { st with reconnections :=
                       st.reconnections + (checkAndMaintain (env i).health).2 }).1.data⟩ ::
               (if 0 < start + ((sc + 1 : ℕ) : ℚ) * interval - (env i).nowSleep
                then [CapEvent.sleep i (start + ((sc + 1 : ℕ) : ℚ) * interval - (env i).nowSleep)]
                else []) ++ t.1, t.2.1, t.2.2)) := by
  simp only [captureLoop]
  rw [hc]
  simp only [Bool.false_eq_true, if_false]
  rw [if_neg (not_le.mpr hd), hh]
  simp

theorem captureLoop_sleep_spec (pids : List PidName) (duration start interval : ℚ)
    (env : ℕ → TickEnv) :
    ∀ (fuel i : ℕ) (st : Stats) (tr : List CapEvent) (ok : Bool) (st2 : Stats),
      captureLoop pids duration start interval env fuel i i st = some (tr, ok, st2) →
      ∀ j d, CapEvent.sleep j d ∈ tr →
        d = start + ((j : ℚ) + 1) * interval - (env j).nowSleep ∧ 0 < d := by
  intro fuel
  induction fuel with
  | zero =>
    intro i st tr ok st2 h
    simp [captureLoop] at h
  | succ f ih =>
    intro i st tr ok st2 h j d hmem
    by_cases hc : (env i).cancel = true
    · rw [captureLoop_step_cancel pids duration start interval env f i i st hc] at h
      simp only [Option.some.injEq, Prod.mk.injEq] at h
      rw [← h.1] at hmem
      simp at hmem
    · have hc' : (env i).cancel = false := by
        cases hx : (env i).cancel
        · rfl
        · exact absurd hx hc
      by_cases hd0 : duration ≤ (env i).nowTop - start
      · rw [captureLoop_step_done pids duration start interval env f i i st hc' hd0] at h
        simp only [Option.some.injEq, Prod.mk.injEq] at h
        rw [← h.1] at hmem
        simp at hmem
      · have hd' : (env i).nowTop - start < duration := lt_of_not_le hd0
        by_cases hh : (checkAndMaintain (env i).health).1 = true
        · rw [captureLoop_step_normal pids duration start interval env f i i st hc' hd' hh] at h
          cases hrec : captureLoop pids duration start interval env f (i + 1) (i + 1)
              (capture_sample pids (env i).outcomes
                { st with reconnections :=
                    st.reconnections + (checkAndMaintain (env i).health).2 }).2 with
          | none => rw [hrec] at h; cases h
          | some t =>
            rw [hrec] at h
            simp only [Option.some.injEq, Prod.mk.injEq] at h
            rw [← h.1] at hmem
            rcases List.mem_cons.mp hmem with hx | hx
            · cases hx
            · rcases List.mem_append.mp hx with hy | hy
              · by_cases hpos : 0 < start + ((i + 1 : ℕ) : ℚ) * interval - (env i).nowSleep
                · rw [if_pos hpos] at hy
                  simp only [List.mem_singleton] at hy
                  cases hy
                  constructor
                  · push_cast
                    ring
                  · exact hpos
                · rw [if_neg hpos] at hy
                  simp at hy
              · exact ih (i + 1) _ t.1 t.2.1 t.2.2 (by rw [hrec]) j d hy
        · have hh' : (checkAndMaintain (env i).health).1 = false := by
            cases hx : (checkAndMaintain (env i).health).1
            · rfl
            · exact absurd hx hh
          rw [captureLoop_step_dead pids duration start interval env f i i st hc' hd' hh'] at h
          simp only [Option.some.injEq, Prod.mk.injEq] at h
          rw [← h.1] at hmem
          simp at hmem

theorem captureLoop_no_close (pids : List PidName) (duration start interval : ℚ)
    (env : ℕ → TickEnv) :
    ∀ (fuel i sc : ℕ) (st : Stats) (tr : List CapEvent) (ok : Bool) (st2 : Stats),
      captureLoop pids duration start interval env fuel i sc st = some (tr, ok, st2) →
      tr.count CapEvent.closeSink = 0 := by
  intro fuel
  induction fuel with
  | zero =>
    intro i sc st tr ok st2 h
    simp [captureLoop] at h
  | succ f ih =>
    intro i sc st tr ok st2 h
    by_cases hc : (env i).cancel = true
    · rw [captureLoop_step_cancel pids duration start interval env f i sc st hc] at h
      simp only [Option.some.injEq, Prod.mk.injEq] at h
      rw [← h.1]
      rfl
    · have hc' : (env i).cancel = false := by
        cases hx : (env i).cancel
        · rfl
        · exact absurd hx hc
      by_cases hd0 : duration ≤ (env i).nowTop - start
      · rw [captureLoop_step_done pids duration start interval env f i sc st hc' hd0] at h
        simp only [Option.some.injEq, Prod.mk.injEq] at h
        rw [← h.1]
        rfl
      · have hd' : (env i).nowTop - start < duration := lt_of_not_le hd0
        by_cases hh : (checkAndMaintain (env i).health).1 = true
        · rw [captureLoop_step_normal pids duration start interval env f i sc st hc' hd' hh] at h
          cases hrec : captureLoop pids duration start interval env f (i + 1) (sc + 1)
              (capture_sample pids (env i).outcomes
                { st with reconnections :=
                    st.reconnections + (checkAndMaintain (env i).health).2 }).2 with
          | none => rw [hrec] at h; cases h
          | some t =>
            rw [hrec] at h
            simp only [Option.some.injEq, Prod.mk.injEq] at h
            rw [← h.1]
            have htail : t.1.count CapEvent.closeSink = 0 :=
              ih (i + 1) (sc + 1) _ t.1 t.2.1 t.2.2 (by rw [hrec])
            rw [List.count_append, htail]
            by_cases hpos : 0 < start + ((sc + 1 : ℕ) : ℚ) * interval - (env i).nowSleep
            · rw [if_pos hpos]; rfl
            · rw [if_neg hpos]; rfl
        · have hh' : (checkAndMaintain (env i).health).1 = false := by
            cases hx : (checkAndMaintain (env i).health).1
            · rfl
            · exact absurd hx hh
          rw [captureLoop_step_dead pids duration start interval env f i sc st hc' hd' hh'] at h
          simp only [Option.some.injEq, Prod.mk.injEq] at h
          rw [← h.1]
          rfl

theorem captureLoop_exhausted (pids : List PidName) (duration start interval : ℚ)
    (env : ℕ → TickEnv) :
    ∀ (j fuel i sc : ℕ) (st : Stats), j < fuel →
      (∀ m, m < j → (env (i + m)).cancel = false ∧
        (env (i + m)).nowTop - start < duration ∧
        (env (i + m)).health ≠ HealthEnv.unhealthyExhausted) →
      (env (i + j)).cancel = false → (env (i + j)).nowTop - start < duration →
      (env (i + j)).health = HealthEnv.unhealthyExhausted →
      ∃ tr st2,
        captureLoop pids duration start interval env fuel i sc st = some (tr, false, st2) ∧
        tr.countP CapEvent.isRow = j := by
  intro j
  induction j with
  | zero =>
    intro fuel i sc st hfuel hpre hc hd hh
    rw [Nat.add_zero] at hc hd hh
    cases fuel with
    | zero => omega
    | succ f =>
      have hcm : (checkAndMaintain (env i).health).1 = false := by
        rw [hh]; rfl
      exact ⟨[], { st with reconnections := st.reconnections + (checkAndMaintain (env i).health).2 },
        captureLoop_step_dead pids duration start interval env f i sc st hc hd hcm, rfl⟩
  | succ jj ih =>
    intro fuel i sc st hfuel hpre hc hd hh
    cases fuel with
    | zero => omega
    | succ f =>
      obtain ⟨hc0, hd0, hh0⟩ := by
        have h0 := hpre 0 (by omega)
        rw [Nat.add_zero] at h0
        exact h0
      have hcm : (checkAndMaintain (env i).health).1 = true := by
        cases hht : (env i).health
        · rfl
        · rfl
        · exact absurd hht hh0
      have hpre1 : ∀ m, m < jj → (env (i + 1 + m)).cancel = false ∧
          (env (i + 1 + m)).nowTop - start < duration ∧
          (env (i + 1 + m)).health ≠ HealthEnv.unhealthyExhausted := by
        intro m hm
        have h := hpre (m + 1) (by omega)
        rw [show i + (m + 1) = i + 1 + m by omega] at h
        exact h
      have hshift : i + (jj + 1) = i + 1 + jj := by omega
      rw [hshift] at hc hd hh
      obtain ⟨tr, st2, hrec, hcount⟩ :=
        ih f (i + 1) (sc + 1)
          (capture_sample pids (env i).outcomes
            { st with reconnections :=
                st.reconnections + (checkAndMaintain (env i).health).2 }).2
          (by omega) hpre1 hc hd hh
      refine ⟨CapEvent.row ⟨(env i).nowTop - start,
          rowCells pids (capture_sample pids (env i).outcomes
            { st with reconnections :=
                st.reconnections + (checkAndMaintain (env i).health).2 }).1.data⟩ ::
        (if 0 < start + ((sc + 1 : ℕ) : ℚ) * interval - (env i).nowSleep
         then [CapEvent.sleep i (start + ((sc + 1 : ℕ) : ℚ) * interval - (env i).nowSleep)]
         else []) ++ tr, st2, ?_, ?_⟩
      · rw [captureLoop_step_normal pids duration start interval env f i sc st hc0 hd0 hcm,
            hrec]
      · rw [List.countP_append, List.countP_cons]
        have hsl : (if 0 < start + ((sc + 1 : ℕ) : ℚ) * interval - (env i).nowSleep
            then [CapEvent.sleep i (start + ((sc + 1 : ℕ) : ℚ) * interval - (env i).nowSleep)]
            else []).countP CapEvent.isRow = 0 := by
          by_cases hpos : 0 < start + ((sc + 1 : ℕ) : ℚ) * interval - (env i).nowSleep
          · rw [if_pos hpos]; rfl
          · rw [if_neg hpos]; rfl
        rw [hsl, hcount]
        simp [CapEvent.isRow]
        omega

/-- Claim C7 (confirmed): in the `capture_scenario` loop, every sleep of
iteration `i` targets the absolute time `start + (i+1) × interval` computed
from the fixed loop start, sleeps exactly the remaining delta to that target
as read from the clock at the end of the iteration, and only when that delta
is positive (no sleep once the target has passed) — never the fixed interval
unconditionally. -/
theorem capture_sleep_absolute_targets (pids : List PidName)
    (duration start interval : ℚ) (env : ℕ → TickEnv) (fuel : ℕ) (st : Stats)
    (tr : List CapEvent) (ok : Bool) (st2 : Stats)
    (hrun : captureScenario pids duration start interval env fuel st = some (tr, ok, st2)) :
    ∀ i d, CapEvent.sleep i d ∈ tr →
      d = start + ((i : ℚ) + 1) * interval - (env i).nowSleep ∧ 0 < d := by
  intro i d hmem
  unfold captureScenario at hrun
  cases hrec : captureLoop pids duration start interval env fuel 0 0 st with
  | none => rw [hrec] at hrun; cases hrun
  | some t =>
    rw [hrec] at hrun
    simp only [Option.some.injEq, Prod.mk.injEq] at hrun
    obtain ⟨htr, _, _⟩ := hrun
    rw [← htr] at hmem
    rcases List.mem_append.mp hmem with hm | hm
    · exact captureLoop_sleep_spec pids duration start interval env fuel 0 st t.1 t.2.1 t.2.2
        (by rw [hrec]) i d hm
    · simp at hm

/-- Environment for the C7 witness: tick 0 happens at time 0 and computes its
sleep from clock value 0; tick 1 observes clock value 1, at which point the
1-second scenario duration has elapsed. -/
def wEnvSleep : ℕ → TickEnv := fun n =>
  { cancel := false, nowTop := (n : ℚ), health := HealthEnv.healthy,
    outcomes := fun _ => ChanOutcome.nullResp, nowSleep := 0 }

theorem wEnvSleep_run :
    captureScenario [] 1 0 1 wEnvSleep 2 ⟨0, 0, 0⟩ =
      some ([CapEvent.row ⟨0, []⟩, CapEvent.sleep 0 1, CapEvent.closeSink], true,
        ⟨1, 0, 0⟩) := by
  have hstep0 := captureLoop_step_normal [] 1 0 1 wEnvSleep 1 0 0 ⟨0, 0, 0⟩ rfl
    (by norm_num [wEnvSleep]) rfl
  unfold captureScenario
  rw [hstep0]
  rw [captureLoop_step_done [] 1 0 1 wEnvSleep 0 (0 + 1) (0 + 1) _ rfl
    (by norm_num [wEnvSleep])]
  norm_num [wEnvSleep, rowCells, capture_sample, checkAndMaintain]

/-- Witness for `capture_sleep_absolute_targets`: a concrete 1-tick run whose
single sleep lasts 1 second, the delta from clock 0 to target `0 + 1 × 1`. -/
theorem capture_sleep_absolute_targets_witness :
    (1 : ℚ) = 0 + (((0 : ℕ) : ℚ) + 1) * 1 - (wEnvSleep 0).nowSleep ∧ (0 : ℚ) < 1 :=
  capture_sleep_absolute_targets [] 1 0 1 wEnvSleep 2 ⟨0, 0, 0⟩
    [CapEvent.row ⟨0, []⟩, CapEvent.sleep 0 1, CapEvent.closeSink] true ⟨1, 0, 0⟩
    wEnvSleep_run 0 1 (by decide)

/-- Claim C9 (confirmed): if ticks `0..j-1` proceed normally and at tick `j`
the health check reports unhealthy and the reconnect also fails
(`unhealthyExhausted`), then `capture_scenario` stops the loop and returns
failure (`False`, not an exception), the sink is closed exactly once by the
`finally` block, and the `j` rows written before the failure are all still in
the sink's event trace. -/
theorem capture_reconnect_exhausted_fails (pids : List PidName)
    (duration start interval : ℚ) (env : ℕ → TickEnv) (fuel : ℕ) (st : Stats)
    (j : ℕ) (hfuel : j < fuel)
    (hpre : ∀ m, m < j → (env m).cancel = false ∧ (env m).nowTop - start < duration ∧
      (env m).health ≠ HealthEnv.unhealthyExhausted)
    (hc : (env j).cancel = false) (hd : (env j).nowTop - start < duration)
    (hh : (env j).health = HealthEnv.unhealthyExhausted) :
    ∃ tr st2,
      captureScenario pids duration start interval env fuel st = some (tr, false, st2) ∧
      tr.countP CapEvent.isRow = j ∧
      tr.count CapEvent.closeSink = 1 := by
  obtain ⟨tr0, st2, hrec, hcount⟩ :=
    captureLoop_exhausted pids duration start interval env j fuel 0 0 st hfuel
      (by intro m hm; simpa using hpre m hm)
      (by simpa using hc) (by simpa using hd) (by simpa using hh)
  have hnoclose := captureLoop_no_close pids duration start interval env fuel 0 0 st
    tr0 false st2 hrec
  refine ⟨tr0 ++ [CapEvent.closeSink], st2, ?_, ?_, ?_⟩
  · unfold captureScenario
    rw [hrec]
  · rw [List.countP_append, hcount]
    rfl
  · rw [List.count_append, hnoclose]
    rfl

/-- Environment for the C9 witness: tick 0 is healthy, tick 1 finds the
connection unhealthy and the reconnect exhausted. -/
def wEnvDead : ℕ → TickEnv := fun n =>
  { cancel := false, nowTop := 0,
    health := if n = 0 then HealthEnv.healthy else HealthEnv.unhealthyExhausted,
    outcomes := fun _ => ChanOutcome.nullResp, nowSleep := 0 }

/-- Witness for `capture_reconnect_exhausted_fails`: a concrete run that
writes one row, then hits the exhausted reconnect on tick 1. -/
theorem capture_reconnect_exhausted_fails_witness :
    ∃ tr st2,
      captureScenario [] 10 0 1 wEnvDead 3 ⟨0, 0, 0⟩ = some (tr, false, st2) ∧
      tr.countP CapEvent.isRow = 1 ∧
      tr.count CapEvent.closeSink = 1 :=
  capture_reconnect_exhausted_fails [] 10 0 1 wEnvDead 3 ⟨0, 0, 0⟩ 1 (by omega)
    (by
      intro m hm
      have hm0 : m = 0 := by omega
      subst hm0
      exact ⟨rfl, by norm_num [wEnvDead], by decide⟩)
    rfl (by norm_num [wEnvDead]) rfl

/-! Protocol discovery (`Protocol Discovery/protocol_discovery.py`). -/

/-- The fixed inter-probe delay of the standard-PID sweep:
`time.sleep(0.1)` at protocol_discovery.py line 146. -/
def standardProbeDelay : ℚ := 1 / 10

/-- The fixed inter-probe delay of the custom-range sweep:
`time.sleep(0.15)` at protocol_discovery.py line 203. -/
def customProbeDelay : ℚ := 3 / 20

/-- Observable transport events of a discovery sweep: one query issued, or a
`time.sleep` of the given duration. -/
inductive ScanEvent
  | query
  | sleep (d : ℚ)
deriving DecidableEq

/-- Outcome of probing one identifier in `scan_custom_pids`: the raw query
raises (swallowed by the inner `except`), yields nothing recordable
(`None`, null, or a falsy value), or yields a recordable response. -/
inductive ProbeOutcome
  | raises
  | noResp
  | resp (v : Value)
deriving DecidableEq

/-- The `for cmd in supported_commands` loop of
`ProtocolDiscovery.scan_standard_pids` (protocol_discovery.py lines 122-146):
query each command via `query_pid`, record responders, and sleep the fixed
delay after every probe.  `resp c` collapses the response to `some` value iff
it was non-`None` and not null. -/
def scanStandardLoop (resp : PidName → Option Value) :
    List PidName → List PidName × List ScanEvent
  | [] => ([], [])
  | c :: rest =>
    let t := scanStandardLoop resp rest
    match resp c with
    | some _ => (c :: t.1, .query :: .sleep standardProbeDelay :: t.2)
    | none => (t.1, .query :: .sleep standardProbeDelay :: t.2)

/-- `ProtocolDiscovery.scan_standard_pids` (protocol_discovery.py lines
104-155): bail out with nothing when not connected, else sweep the supported
commands. -/
def scan_standard_pids (connected : Bool) (cmds : List PidName)
    (resp : PidName → Option Value) : List PidName × List ScanEvent :=
  if connected then scanStandardLoop resp cmds else ([], [])

/-- The `for pid in range(...)` loop of `ProtocolDiscovery.scan_custom_pids`
(protocol_discovery.py lines 180-203): issue one raw query per identifier
(the inner `try` swallows a raising query), record identifiers with a
non-null truthy response, and sleep the fixed delay after every probe — the
sleep sits outside the inner `try`, so it happens even when the probe
raised. -/
def scanCustomLoop (outcome : ℕ → ProbeOutcome) :
    List ℕ → List ℕ × List ScanEvent
  | [] => ([], [])
  | pid :: rest =>
    let t := scanCustomLoop outcome rest
    match outcome pid with
    | .resp _ => (pid :: t.1, .query :: .sleep customProbeDelay :: t.2)
    | _ => (t.1, .query :: .sleep customProbeDelay :: t.2)

/-- `ProtocolDiscovery.scan_custom_pids` (protocol_discovery.py lines
157-210): bail out with nothing when not connected, else sweep
`range(lo, hi + 1)`. -/
def scan_custom_pids (connected : Bool) (lo hi : ℕ) (outcome : ℕ → ProbeOutcome) :
    List ℕ × List ScanEvent :=
  if connected then scanCustomLoop outcome (List.range' lo (hi + 1 - lo)) else ([], [])

/-- The transport trace of an `n`-probe sweep with inter-probe delay `d`. -/
def probeTrace (d : ℚ) : ℕ → List ScanEvent
  | 0 => []
  | n + 1 => .query :: .sleep d :: probeTrace d n

/-- Accumulate the total sleep time since the last query; emit it as a gap at
each subsequent query. -/
def gapsFrom : ℚ → List ScanEvent → List ℚ
  | _, [] => []
  | acc, .sleep s :: tr => gapsFrom (acc + s) tr
  | acc, .query :: tr => acc :: gapsFrom 0 tr

/-- For each pair of consecutive query events in a trace, the total sleep
time between them. -/
def queryGaps : List ScanEvent → List ℚ
  | [] => []
  | .sleep _ :: tr => queryGaps tr
  | .query :: tr => gapsFrom 0 tr

theorem scanStandardLoop_trace (resp : PidName → Option Value) :
    ∀ cmds : List PidName,
      (scanStandardLoop resp cmds).2 = probeTrace standardProbeDelay cmds.length := by
  intro cmds
  induction cmds with
  | nil => rfl
  | cons c cs ih =>
    cases hr : resp c <;> simp [scanStandardLoop, hr, probeTrace, ih]

theorem scanCustomLoop_trace (outcome : ℕ → ProbeOutcome) :
    ∀ ids : List ℕ,
      (scanCustomLoop outcome ids).2 = probeTrace customProbeDelay ids.length := by
  intro ids
  induction ids with
  | nil => rfl
  | cons p ps ih =>
    cases hr : outcome p <;> simp [scanCustomLoop, hr, probeTrace, ih]

theorem scan_standard_trace (cmds : List PidName) (resp : PidName → Option Value) :
    (scan_standard_pids true cmds resp).2 = probeTrace standardProbeDelay cmds.length := by
  rw [scan_standard_pids, if_pos rfl]
  exact scanStandardLoop_trace resp cmds

theorem scan_custom_trace (lo hi : ℕ) (outcome : ℕ → ProbeOutcome) :
    (scan_custom_pids true lo hi outcome).2 =
      probeTrace customProbeDelay (List.range' lo (hi + 1 - lo)).length := by
  rw [scan_custom_pids, if_pos rfl]
  exact scanCustomLoop_trace outcome (List.range' lo (hi + 1 - lo))

theorem gapsFrom_probeTrace_succ (d : ℚ) :
    ∀ (m : ℕ) (acc : ℚ), gapsFrom acc (probeTrace d (m + 1)) = acc :: List.replicate m d := by
  intro m
  induction m with
  | zero => intro acc; rfl
  | succ k ih =>
    intro acc
    have h1 : gapsFrom acc (probeTrace d (k + 1 + 1)) =
        acc :: gapsFrom (0 + d) (probeTrace d (k + 1)) := rfl
    rw [h1, ih (0 + d), zero_add, List.replicate_succ]

theorem queryGaps_probeTrace (d : ℚ) (n : ℕ) :
    queryGaps (probeTrace d n) = List.replicate (n - 1) d := by
  cases n with
  | zero => rfl
  | succ m =>
    cases m with
    | zero => rfl
    | succ k =>
      have h1 : queryGaps (probeTrace d (k + 1 + 1)) =
          gapsFrom (0 + d) (probeTrace d (k + 1)) := rfl
      rw [h1, gapsFrom_probeTrace_succ d k (0 + d), zero_add]
      rfl

/-- Claim C4 (corrected): within each sweep, every gap between two
consecutive transport queries is at least the sweep's configured inter-probe
delay (in fact exactly one such sleep separates them).  However, the two
sweeps do *not* share one fixed delay: the standard sweep uses 0.1 s and the
custom-range sweep 0.15 s (see the counterexample theorem). -/
theorem scan_probe_spacing (connected1 connected2 : Bool) (cmds : List PidName)
    (resp : PidName → Option Value) (lo hi : ℕ) (outcome : ℕ → ProbeOutcome) :
    (∀ g ∈ queryGaps (scan_standard_pids connected1 cmds resp).2,
      standardProbeDelay ≤ g) ∧
    (∀ g ∈ queryGaps (scan_custom_pids connected2 lo hi outcome).2,
      customProbeDelay ≤ g) := by
  constructor
  · intro g hg
    cases connected1 with
    | false => simp [scan_standard_pids, queryGaps] at hg
    | true =>
      rw [scan_standard_trace, queryGaps_probeTrace] at hg
      rw [List.eq_of_mem_replicate hg]
  · intro g hg
    cases connected2 with
    | false => simp [scan_custom_pids, queryGaps] at hg
    | true =>
      rw [scan_custom_trace, queryGaps_probeTrace] at hg
      rw [List.eq_of_mem_replicate hg]

/-- Witness for `scan_probe_spacing`: concrete two-probe sweeps, whose single
inter-query gap is the sweep's own configured delay. -/
theorem scan_probe_spacing_witness :
    standardProbeDelay ≤ (1 : ℚ) / 10 ∧ customProbeDelay ≤ (3 : ℚ) / 20 := by
  refine ⟨(scan_probe_spacing true true ["A", "B"] (fun _ => none) 0 1
      (fun _ => ProbeOutcome.noResp)).1 ((1 : ℚ) / 10) ?_,
    (scan_probe_spacing true true ["A", "B"] (fun _ => none) 0 1
      (fun _ => ProbeOutcome.noResp)).2 ((3 : ℚ) / 20) ?_⟩
  · rw [scan_standard_trace, queryGaps_probeTrace]
    simp [List.mem_replicate, standardProbeDelay]
  · rw [scan_custom_trace, queryGaps_probeTrace]
    simp [List.mem_replicate, customProbeDelay]

/-- Claim C4 counterexample: both sweeps do sleep between probes, but the
standard sweep sleeps `standardProbeDelay` (0.1 s) while the custom sweep
sleeps `customProbeDelay` (0.15 s) — the claim that the two sweeps use the
same fixed inter-probe delay is false. -/
theorem scan_delays_differ :
    ScanEvent.sleep standardProbeDelay ∈
      (scan_standard_pids true ["RPM"] (fun _ => none)).2 ∧
    ScanEvent.sleep customProbeDelay ∈
      (scan_custom_pids true 0 0 (fun _ => ProbeOutcome.noResp)).2 ∧
    standardProbeDelay ≠ customProbeDelay := by
  refine ⟨?_, ?_, ?_⟩
  · rw [scan_standard_trace]
    simp [probeTrace]
  · rw [scan_custom_trace]
    simp [probeTrace]
  · norm_num [standardProbeDelay, customProbeDelay]

end Kioti
